import Mathlib

/-
Shallow embedding of src/routing.py (hazard-aware routing engine).

Modelling conventions:
* Machine floats are modelled by exact rationals `ℚ`; the claims under
  study are about control flow and algebraic structure, not float rounding.
* A networkx MultiDiGraph is modelled by an insertion-ordered list of edge
  entries (`Edge`), each carrying its endpoints, a parallel-edge key and the
  attribute dictionary fields actually read by routing.py (`geometry`,
  `length`, `speed_kph`, `hazard_penalty`).  An undirected graph is the
  special case where both orientations are listed (or, for structural claims
  about the grid, each undirected edge is listed once, as networkx's
  `Graph.edges` reports it).
* Python node identifiers in this repository are either integers (osmnx
  node ids) or coordinate tuples (grid nodes); `NodeId` is the corresponding
  sum type.  `isinstance(node, tuple)` becomes matching on `Sum.inr`.
* A shapely polygon is observed by routing.py only through
  `poly.contains(point)`; a polygon is therefore embedded as its boolean
  containment predicate on points.  An edge's `geometry` attribute is
  observed only through `.centroid`, so the attribute is embedded as that
  centroid point.
* Library calls are embedded by their documented contracts:
  - `ox.nearest_nodes` is an oracle parameter (`Resolver`); returning `none`
    models the call raising (the caller catches every exception).
  - `nx.shortest_path(G, s, t, weight=w)` returns a minimum-total-weight
    path with a deterministic tie-break, raising (here: `none`) when either
    endpoint is missing or no path exists.  It is embedded as a
    deterministic argmin over the simple paths of the graph.
  - `MultiGraph.remove_edge(u, v)` with no key removes, per the networkx
    documentation, the last edge added between `u` and `v` in insertion
    order; embedded as removing the last matching entry of the edge list.
-/

namespace Disaster

/-- A 2-D point with exact rational coordinates.  For hazard tests it is an
(x, y) pair as in shapely; for route output it is a (lat, lon) pair. -/
abbrev Point : Type := ℚ × ℚ

/-- A hazard polygon, observed only through its containment predicate. -/
abbrev Polygon : Type := Point → Bool

/-- A graph node identifier: an integer id (live osmnx graphs) or a
coordinate tuple (grid fallback graphs). -/
abbrev NodeId : Type := ℕ ⊕ (ℚ × ℚ)

instance : DecidableEq NodeId :=
  inferInstanceAs (DecidableEq (ℕ ⊕ (ℚ × ℚ)))

instance (a : NodeId) (l : List NodeId) : Decidable (a ∈ l) :=
  decidable_of_iff (∃ x ∈ l, a = x) (by simp)

/-- Node attribute dictionary: the optional `x` (longitude) and `y`
(latitude) attributes read by routing.py. -/
structure NodeData where
  x : Option ℚ
  y : Option ℚ
  deriving DecidableEq

/-- One edge entry of the multigraph: endpoints, parallel-edge key, and the
attribute fields routing.py reads.  `geometry` is represented by the
centroid of the stored geometry, the only observation made of it. -/
structure Edge where
  u : NodeId
  v : NodeId
  key : ℕ
  geometry : Option Point
  length : Option ℚ
  speed_kph : Option ℚ
  hazard_penalty : Option ℚ
  deriving DecidableEq

/-- The multigraph: insertion-ordered node and edge lists. -/
structure Graph where
  nodes : List (NodeId × NodeData)
  edges : List Edge
  deriving DecidableEq

/-- Dictionary lookup `G.nodes[n]`: the attribute record of node `n`, or
`none` when the node is absent (Python raises `KeyError`). -/
def lookupNode (nodes : List (NodeId × NodeData)) (n : NodeId) : Option NodeData :=
  (nodes.find? (fun q => decide (q.1 = n))).map Prod.snd

/-- The node identifiers present in a graph. -/
def nodeIds (g : Graph) : List NodeId :=
  g.nodes.map Prod.fst

/-! ## build_grid_graph (routing.py lines 23-28)

`nx.grid_2d_graph(size, size)` builds the size×size lattice with nodes
`(i, j)` and one undirected edge between each orthogonally adjacent pair;
the loop then sets `length = 1` on every edge.  Grid nodes carry no `x`/`y`
attributes. -/

/-- The grid node `(i, j)`, a Python tuple node identifier. -/
def gridNode (i j : ℕ) : NodeId :=
  Sum.inr ((i : ℚ), (j : ℚ))

/-- A grid edge entry with unit length and no other attributes. -/
def gridEdge (a b : NodeId) : Edge :=
  { u := a, v := b, key := 0, geometry := none,
    length := some 1, speed_kph := none, hazard_penalty := none }

/-- Embeds `build_grid_graph`: the size×size lattice, one edge of length 1
between each orthogonally adjacent node pair, nodes without coordinates. -/
def build_grid_graph (size : ℕ) : Graph :=
  { nodes := (List.range size).flatMap (fun i =>
      (List.range size).map (fun j => (gridNode i j, ⟨none, none⟩))),
    edges :=
      ((List.range size).flatMap (fun i =>
        (List.range size).map (fun j => (i, j)))).flatMap (fun p =>
          (if p.1 + 1 < size then [gridEdge (gridNode p.1 p.2) (gridNode (p.1 + 1) p.2)] else [])
          ++ (if p.2 + 1 < size then [gridEdge (gridNode p.1 p.2) (gridNode p.1 (p.2 + 1))] else [])) }

/-! ## load_graph (routing.py lines 8-21)

The external fetch `ox.graph_from_point` is an oracle: `some G` on success,
`none` when it raises.  The cached graph load `ox.load_graphml` is likewise
a value parameter.  On fetch failure the function prints and returns
`build_grid_graph()` (default size 10). -/

/-- Embeds `load_graph`: cached graph when `online` is false and the cache
file exists, else the fetched graph, else the 10×10 grid fallback. -/
def load_graph (online : Bool) (cacheExists : Bool) (cached : Graph)
    (fetched : Option Graph) : Graph :=
  if !online && cacheExists then cached
  else
    match fetched with
    | some G => G
    | none => build_grid_graph 10

/-! ## block_edges_by_hazards (routing.py lines 30-52) -/

/-- The `for poly in hazard_polygons` loop with its `break`: true when the
first polygon containing `p` exists. -/
def anyContains : List Polygon → Point → Bool
  | [], _ => false
  | poly :: rest, p => if poly p then true else anyContains rest p

/-- The representative point of an edge: the geometry centroid when the
`geometry` attribute is present, else the midpoint of the endpoints'
(x, y) coordinates.  `none` models the `except` branch: a missing node or a
missing `x`/`y` attribute raises `KeyError`, which is caught and the edge
skipped. -/
def repPoint (nodes : List (NodeId × NodeData)) (e : Edge) : Option Point :=
  match e.geometry with
  | some c => some c
  | none =>
    match lookupNode nodes e.u, lookupNode nodes e.v with
    | some du, some dv =>
      match du.x, dv.x, du.y, dv.y with
      | some xu, some xv, some yu, some yv => some ((xu + xv) / 2, (yu + yv) / 2)
      | _, _, _, _ => none
    | _, _ => none

/-- Removes the last list entry satisfying `p`; `none` when no entry
matches. -/
def removeLastMatch (p : α → Bool) : List α → Option (List α)
  | [] => none
  | a :: as =>
    match removeLastMatch p as with
    | some as' => some (a :: as')
    | none => if p a then some as else none

/-- Embeds `G.remove_edge(u, v)` on a multigraph: removes the last-inserted
edge entry between `u` and `v`; `none` models the `NetworkXError` raised
when no such edge remains. -/
def removeEdgeLast (es : List Edge) (u v : NodeId) : Option (List Edge) :=
  removeLastMatch (fun e => decide (e.u = u) && decide (e.v = v)) es

/-- The loop of `block_edges_by_hazards` over the snapshot `todo` of
`list(G.edges(data=True))`, threading the current edge list and the blocked
count.  Node data is never mutated, so representative points are computed
against the fixed `nodes` list. -/
def blockAux (nodes : List (NodeId × NodeData)) (polys : List Polygon) :
    List Edge → List Edge → ℕ → List Edge × ℕ
  | [], es, n => (es, n)
  | e :: todo, es, n =>
    match repPoint nodes e with
    | none => blockAux nodes polys todo es n
    | some p =>
      if anyContains polys p then
        match removeEdgeLast es e.u e.v with
        | some es' => blockAux nodes polys todo es' (n + 1)
        | none => blockAux nodes polys todo es n
      else blockAux nodes polys todo es n

/-- Embeds the core of `block_edges_by_hazards` once both arguments are
non-None: returns the mutated graph together with the blocked count. -/
def blockEdges (g : Graph) (polys : List Polygon) : Graph × ℕ :=
  let r := blockAux g.nodes polys g.edges g.edges 0
  ({ nodes := g.nodes, edges := r.1 }, r.2)

/-- Embeds `block_edges_by_hazards` including its `None` guards: a `None`
graph or hazard list yields count 0 with the graph untouched. -/
def block_edges_by_hazards (g : Option Graph) (polys : Option (List Polygon)) :
    Option Graph × ℕ :=
  match g, polys with
  | none, _ => (none, 0)
  | some g, none => (some g, 0)
  | some g, some polys =>
    let r := blockEdges g polys
    (some r.1, r.2)

/-! ## Weight derivation (routing.py lines 76-81, 97-100) -/

/-- The derived `time` attribute written by `compute_fastest_path`:
`speed = data.get("speed_kph", 30)`; when `length` is present and
`speed > 0`, `length / (speed * 1000 / 3600)`, else
`data.get("length", 100) / 10`. -/
def fastestTime (e : Edge) : ℚ :=
  let speed := e.speed_kph.getD 30
  match e.length with
  | some L => if 0 < speed then L / (speed * 1000 / 3600) else L / 10
  | none => (100 : ℚ) / 10

/-- The derived `safe_weight` attribute written by `compute_safest_path`:
`data.get("length", 100) * (1 + data.get("hazard_penalty", 0))`. -/
def safeWeight (e : Edge) : ℚ :=
  e.length.getD 100 * (1 + e.hazard_penalty.getD 0)

/-- The weight function used by `compute_shortest_path`: networkx reads the
`length` attribute and substitutes 1 when it is absent. -/
def lengthWeight (e : Edge) : ℚ :=
  e.length.getD 1

/-! ## nx.shortest_path, embedded as deterministic weighted path choice -/

/-- The out-neighbors of `u`, in edge insertion order. -/
def neighbors (g : Graph) (u : NodeId) : List NodeId :=
  (g.edges.filter (fun e => decide (e.u = u))).map (·.v)

/-- Minimum of a nonempty list accumulated from `a`. -/
def minAux (a : ℚ) : List ℚ → ℚ
  | [] => a
  | x :: xs => minAux (min a x) xs

/-- The effective weight between an ordered node pair: networkx's multigraph
weight function takes the minimum of the weight over all parallel edges
(0 by convention when no edge exists — such pairs never occur on generated
paths). -/
def edgeCost (g : Graph) (w : Edge → ℚ) (u v : NodeId) : ℚ :=
  match (g.edges.filter (fun e => decide (e.u = u) && decide (e.v = v))).map w with
  | [] => 0
  | x :: xs => minAux x xs

/-- Total weight of a node path: the sum of the effective weights of its
consecutive pairs. -/
def pathCost (g : Graph) (w : Edge → ℚ) : List NodeId → ℚ
  | u :: v :: rest => edgeCost g w u v + pathCost g w (v :: rest)
  | _ => 0

/-- All simple paths from `u` to `t` (forward order), by fuelled depth-first
search; `vis` is the list of already-visited nodes in reverse order. -/
def pathsAux (g : Graph) (t : NodeId) : ℕ → NodeId → List NodeId → List (List NodeId)
  | 0, _, _ => []
  | fuel + 1, u, vis =>
    if u = t then [(u :: vis).reverse]
    else
      ((neighbors g u).filter (fun n => !decide (n ∈ u :: vis))).flatMap
        (fun n => pathsAux g t fuel n (u :: vis))

/-- All simple paths from `o` to `t` in `g`.  A simple path traverses at
most `edges.length` edges, so the fuel is sufficient. -/
def allPaths (g : Graph) (o t : NodeId) : List (List NodeId) :=
  pathsAux g t (g.edges.length + 2) o []

/-- Deterministic argmin over a list of candidate paths: the first path of
minimal cost, `none` when there is no candidate. -/
def bestPath (cost : List NodeId → ℚ) : List (List NodeId) → Option (List NodeId)
  | [] => none
  | p :: ps => some (ps.foldl (fun b q => if cost q < cost b then q else b) p)

/-- Embeds `nx.shortest_path(G, o, t, weight=w)` by its contract: `none`
when an endpoint is missing from the graph or no path exists (the library
raises `NodeNotFound` / `NetworkXNoPath`, both caught by routing.py), else
a deterministically chosen minimum-weight simple path. -/
def choosePath (g : Graph) (w : Edge → ℚ) (o t : NodeId) : Option (List NodeId) :=
  if o ∈ nodeIds g ∧ t ∈ nodeIds g then
    bestPath (pathCost g w) (allPaths g o t)
  else none

/-- True when `t` is reachable from `o` in `g` (both present and joined by
some simple path). -/
def reachable (g : Graph) (o t : NodeId) : Bool :=
  decide (o ∈ nodeIds g) && decide (t ∈ nodeIds g) && !(allPaths g o t).isEmpty

/-! ## _nodes_to_coords (routing.py lines 113-124) -/

/-- The loop body of `_nodes_to_coords` for one node: a tuple node is used
directly; otherwise `G.nodes[node].get('y', origin[0])` and
`.get('x', origin[1])` build the pair, and a failed node lookup
(`KeyError`, caught by the bare `except`) substitutes `origin`. -/
def nodeCoord (g : Graph) (origin : Point) : NodeId → Point
  | Sum.inr c => c
  | Sum.inl k =>
    match lookupNode g.nodes (Sum.inl k) with
    | some d => (d.y.getD origin.1, d.x.getD origin.2)
    | none => origin

/-- Embeds `_nodes_to_coords`: maps each path node to a coordinate, and
returns `[origin, target]` when the resulting list is empty. -/
def nodesToCoords (g : Graph) (path : List NodeId) (origin target : Point) :
    List Point :=
  let coords := path.map (nodeCoord g origin)
  if coords.isEmpty then [origin, target] else coords

/-! ## The three search entry points (routing.py lines 54-107)

`ox.nearest_nodes` is an oracle (`Resolver`); `none` models the call
raising, which the surrounding `try` converts to a `None` result.  The
in-place annotation of the derived `time` / `safe_weight` attributes is
observed only as the weight consulted by the search, so it is embedded as
the weight function passed to `choosePath`. -/

/-- The node-resolution oracle standing for `ox.nearest_nodes`. -/
abbrev Resolver : Type := Graph → Point → Option NodeId

/-- Common body of the three search functions, with the weight function as
the only variation point. -/
def computePathWith (w : Edge → ℚ) (res : Resolver) (g : Option Graph)
    (origin target : Point) : Option (List Point) :=
  g.bind (fun g =>
    (res g origin).bind (fun o =>
      (res g target).bind (fun t =>
        (choosePath g w o t).map (fun p => nodesToCoords g p origin target))))

/-- Embeds `compute_shortest_path` (default `weight="length"`). -/
def compute_shortest_path (res : Resolver) (g : Option Graph)
    (origin target : Point) : Option (List Point) :=
  computePathWith lengthWeight res g origin target

/-- Embeds `compute_fastest_path`. -/
def compute_fastest_path (res : Resolver) (g : Option Graph)
    (origin target : Point) : Option (List Point) :=
  computePathWith fastestTime res g origin target

/-- Embeds `compute_safest_path`. -/
def compute_safest_path (res : Resolver) (g : Option Graph)
    (origin target : Point) : Option (List Point) :=
  computePathWith safeWeight res g origin target

/-- Embeds `grid_route_fallback`. -/
def grid_route_fallback (origin target : Point) : List Point :=
  [origin, target]

/-! ## Verification-side helper definitions -/

/-- Two edge entries are non-parallel: their ordered endpoint pairs differ. -/
def KeyNe (a b : Edge) : Prop :=
  (a.u, a.v) ≠ (b.u, b.v)

instance : DecidableRel KeyNe := fun a b =>
  inferInstanceAs (Decidable ((a.u, a.v) ≠ (b.u, b.v)))

/-- A graph has no parallel edges: all edge entries have pairwise distinct
ordered endpoint pairs. -/
def KeysDistinct (g : Graph) : Prop :=
  g.edges.Pairwise KeyNe

/-- The hazard filter's removal condition for one edge entry: its
representative point is computable and lies inside some hazard polygon. -/
def shouldRemove (nodes : List (NodeId × NodeData)) (polys : List Polygon)
    (e : Edge) : Bool :=
  match repPoint nodes e with
  | some p => anyContains polys p
  | none => false

/-- The containment predicate of an open axis-aligned rectangle, a concrete
realizable shapely polygon (strict interior, as `Polygon.contains`). -/
def boxPoly (x1 y1 x2 y2 : ℚ) : Polygon := fun p =>
  (x1 < p.1 && p.1 < x2) && (y1 < p.2 && p.2 < y2)

/-! ## Lemmas about edge removal and the hazard filter loop -/

theorem removeLastMatch_sublist_length {p : α → Bool} :
    ∀ {es es' : List α}, removeLastMatch p es = some es' →
      es'.Sublist es ∧ es.length = es'.length + 1 := by
  intro es
  induction es with
  | nil => intro es' h; simp [removeLastMatch] at h
  | cons a as ih =>
    intro es' h
    simp only [removeLastMatch] at h
    cases hr : removeLastMatch p as with
    | some as' =>
      rw [hr] at h
      cases h
      rcases ih hr with ⟨hs, hl⟩
      exact ⟨hs.cons₂ a, by simp [hl]⟩
    | none =>
      rw [hr] at h
      by_cases hp : p a
      · simp only [hp, if_true, Option.some.injEq] at h
        subst h
        exact ⟨List.sublist_cons_self _ _, rfl⟩
      · simp [hp] at h

theorem removeLastMatch_eq_none {p : α → Bool} :
    ∀ {es : List α}, (∀ x ∈ es, p x = false) → removeLastMatch p es = none := by
  intro es
  induction es with
  | nil => intro _; rfl
  | cons a as ih =>
    intro h
    simp only [removeLastMatch]
    rw [ih (fun x hx => h x (List.mem_cons_of_mem a hx))]
    simp [h a (List.mem_cons_self a as)]

theorem blockAux_frame (nodes : List (NodeId × NodeData)) (polys : List Polygon) :
    ∀ (todo es : List Edge) (n : ℕ),
      (blockAux nodes polys todo es n).1.Sublist es ∧
      (blockAux nodes polys todo es n).2 + (blockAux nodes polys todo es n).1.length
        = n + es.length := by
  intro todo
  induction todo with
  | nil => intro es n; simp [blockAux]
  | cons e todo ih =>
    intro es n
    simp only [blockAux]
    split
    · exact ih es n
    · split
      · split
        · next es' hrm =>
          rcases removeLastMatch_sublist_length hrm with ⟨hs, hl⟩
          rcases ih es' (n + 1) with ⟨hs2, hl2⟩
          exact ⟨hs2.trans hs, by omega⟩
        · exact ih es n
      · exact ih es n

/-- C8: the Hazard Edge Filter never touches the node set, only removes
edges, and its return value counts exactly the removed edges. -/
theorem hazard_filter_frame (g : Graph) (H : List Polygon) :
    (blockEdges g H).1.nodes = g.nodes ∧
    (blockEdges g H).1.edges.Sublist g.edges ∧
    (blockEdges g H).2 + (blockEdges g H).1.edges.length = g.edges.length := by
  rcases blockAux_frame g.nodes H g.edges g.edges 0 with ⟨hs, hl⟩
  exact ⟨rfl, hs, by simpa using hl⟩

theorem keyne_irrefl {e x : Edge} (h : KeyNe e x) : e ≠ x := by
  intro he
  exact h (by rw [he])

theorem removeEdgeLast_unique :
    ∀ {es : List Edge} {e : Edge}, es.Pairwise KeyNe → e ∈ es →
      removeEdgeLast es e.u e.v = some (es.filter (fun x => decide (x ≠ e))) := by
  intro es
  induction es with
  | nil => intro e _ he; simp at he
  | cons a as ih =>
    intro e hp he
    rcases List.pairwise_cons.mp hp with ⟨h1, h2⟩
    rcases List.mem_cons.mp he with rfl | hin
    · have hnone :
          removeLastMatch (fun x => decide (x.u = e.u) && decide (x.v = e.v)) as = none := by
        apply removeLastMatch_eq_none
        intro x hx
        have hk : KeyNe e x := h1 x hx
        cases hu : decide (x.u = e.u) with
        | false => simp
        | true =>
          cases hv : decide (x.v = e.v) with
          | false => simp
          | true =>
            exfalso
            have h1' : x.u = e.u := of_decide_eq_true hu
            have h2' : x.v = e.v := of_decide_eq_true hv
            exact hk (by rw [h1', h2'])
      have hfil : (e :: as).filter (fun x => decide (x ≠ e)) = as := by
        rw [List.filter_cons]
        have hqe : (decide (e ≠ e)) = false := by simp
        rw [hqe]
        simp only [Bool.false_eq_true, if_false]
        apply List.filter_eq_self.mpr
        intro x hx
        exact decide_eq_true (keyne_irrefl (h1 x hx)).symm
      rw [hfil]
      simp [removeEdgeLast, removeLastMatch, hnone]
    · have hne : a ≠ e := keyne_irrefl (h1 e hin)
      have hih := ih h2 hin
      have hfil : (a :: as).filter (fun x => decide (x ≠ e))
          = a :: as.filter (fun x => decide (x ≠ e)) := by
        rw [List.filter_cons]
        simp [hne]
      rw [hfil]
      simp only [removeEdgeLast, removeLastMatch] at hih ⊢
      rw [hih]

theorem blockAux_filter (nodes : List (NodeId × NodeData)) (polys : List Polygon) :
    ∀ (todo es : List Edge) (n : ℕ), todo.Sublist es → es.Pairwise KeyNe →
      blockAux nodes polys todo es n =
        (es.filter (fun x => !(decide (x ∈ todo) && shouldRemove nodes polys x)),
         n + (todo.filter (shouldRemove nodes polys)).length) := by
  intro todo
  induction todo with
  | nil =>
    intro es n _ _
    have hall : ∀ x ∈ es,
        (!(decide (x ∈ ([] : List Edge)) && shouldRemove nodes polys x)) = true := by
      intro x _
      simp
    simp only [blockAux, List.filter_eq_self.mpr hall, List.filter_nil, List.length_nil,
      Nat.add_zero]
  | cons e todo ih =>
    intro es n hsub hkd
    have he : e ∈ es := hsub.subset (List.mem_cons_self e todo)
    have hsubt : todo.Sublist es := List.sublist_of_cons_sublist hsub
    have hpet : (e :: todo).Pairwise KeyNe := List.Pairwise.sublist hsub hkd
    rcases List.pairwise_cons.mp hpet with ⟨hket, _⟩
    simp only [blockAux]
    split
    · next hrp =>
      have hse : shouldRemove nodes polys e = false := by simp [shouldRemove, hrp]
      rw [ih es n hsubt hkd]
      have hedges : es.filter (fun x => !(decide (x ∈ todo) && shouldRemove nodes polys x))
          = es.filter (fun x => !(decide (x ∈ e :: todo) && shouldRemove nodes polys x)) := by
        apply List.filter_congr
        intro x hx
        by_cases hxe : x = e
        · subst hxe; simp [hse]
        · have hmem : (x ∈ e :: todo) ↔ (x ∈ todo) := by simp [List.mem_cons, hxe]
          simp [hmem]
      have hcount : (e :: todo).filter (shouldRemove nodes polys)
          = todo.filter (shouldRemove nodes polys) := by
        rw [List.filter_cons, hse]
        simp
      rw [hedges, hcount]
    · next pt hrp =>
      split
      · next hac =>
        split
        · next es' hrm =>
          have hse : shouldRemove nodes polys e = true := by simp [shouldRemove, hrp, hac]
          have hes' : es' = es.filter (fun x => decide (x ≠ e)) := by
            have := removeEdgeLast_unique hkd he
            rw [hrm] at this
            exact Option.some.injEq _ _ ▸ this.symm ▸ rfl
          subst hes'
          have hent : ∀ x ∈ todo, (decide (x ≠ e)) = true := by
            intro x hx
            exact decide_eq_true (keyne_irrefl (hket x hx)).symm
          have hsubt' : todo.Sublist (es.filter (fun x => decide (x ≠ e))) := by
            have h1 := List.Sublist.filter (fun x => decide (x ≠ e)) hsubt
            rwa [List.filter_eq_self.mpr hent] at h1
          have hkd' : (es.filter (fun x => decide (x ≠ e))).Pairwise KeyNe :=
            List.Pairwise.sublist (List.filter_sublist es) hkd
          rw [ih _ (n + 1) hsubt' hkd']
          have hedges : (es.filter (fun x => decide (x ≠ e))).filter
                (fun x => !(decide (x ∈ todo) && shouldRemove nodes polys x))
              = es.filter (fun x => !(decide (x ∈ e :: todo) && shouldRemove nodes polys x)) := by
            rw [List.filter_filter]
            apply List.filter_congr
            intro x hx
            by_cases hxe : x = e
            · subst hxe; simp [hse]
            · have hmem : (x ∈ e :: todo) ↔ (x ∈ todo) := by simp [List.mem_cons, hxe]
              simp [hmem, hxe]
          have hcount : ((e :: todo).filter (shouldRemove nodes polys)).length
              = (todo.filter (shouldRemove nodes polys)).length + 1 := by
            rw [List.filter_cons, hse]
            simp
          rw [hedges]
          refine Prod.ext rfl ?_
          simp only [hcount]
          omega
        · next hrm =>
          exfalso
          have := removeEdgeLast_unique hkd he
          rw [hrm] at this
          simp at this
      · next hac =>
        have hac' : anyContains polys pt = false := by
          revert hac
          cases anyContains polys pt <;> simp
        have hse : shouldRemove nodes polys e = false := by simp [shouldRemove, hrp, hac']
        rw [ih es n hsubt hkd]
        have hedges : es.filter (fun x => !(decide (x ∈ todo) && shouldRemove nodes polys x))
            = es.filter (fun x => !(decide (x ∈ e :: todo) && shouldRemove nodes polys x)) := by
          apply List.filter_congr
          intro x hx
          by_cases hxe : x = e
          · subst hxe; simp [hse]
          · have hmem : (x ∈ e :: todo) ↔ (x ∈ todo) := by simp [List.mem_cons, hxe]
            simp [hmem]
        have hcount : (e :: todo).filter (shouldRemove nodes polys)
            = todo.filter (shouldRemove nodes polys) := by
          rw [List.filter_cons, hse]
          simp
        rw [hedges, hcount]

theorem blockEdges_eq (g : Graph) (polys : List Polygon) (hkd : KeysDistinct g) :
    blockEdges g polys =
      ({ nodes := g.nodes,
         edges := g.edges.filter (fun x => !shouldRemove g.nodes polys x) },
       (g.edges.filter (shouldRemove g.nodes polys)).length) := by
  have h := blockAux_filter g.nodes polys g.edges g.edges 0 (List.Sublist.refl _) hkd
  have hedges :
      g.edges.filter (fun x => !(decide (x ∈ g.edges) && shouldRemove g.nodes polys x))
        = g.edges.filter (fun x => !shouldRemove g.nodes polys x) := by
    apply List.filter_congr
    intro x hx
    simp [hx]
  simp only [blockEdges, h, Nat.zero_add]
  rw [hedges]

theorem bool_eq_false_of_ne_true {b : Bool} (h : ¬b = true) : b = false := by
  revert h
  cases b <;> simp

/-- C1 (amended): on graphs with no parallel edges, every edge removed by
the Hazard Edge Filter has its representative point inside some hazard
polygon (first match wins), and every retained edge whose representative
point is computable has that point outside all hazard polygons.  On
multigraphs with parallel edges the claim fails (see the counterexample):
`remove_edge` drops the last-inserted parallel edge, not the tested one. -/
theorem hazard_filter_correct (g : Graph) (H : List Polygon) (hkd : KeysDistinct g) :
    (∀ e ∈ g.edges, e ∉ (blockEdges g H).1.edges →
       ∃ p, repPoint g.nodes e = some p ∧ anyContains H p = true) ∧
    (∀ e ∈ (blockEdges g H).1.edges, ∀ p, repPoint g.nodes e = some p →
       anyContains H p = false) := by
  rw [blockEdges_eq g H hkd]
  constructor
  · intro e he hnot
    have hsr : shouldRemove g.nodes H e = true := by
      by_contra hb
      exact hnot (List.mem_filter.mpr ⟨he, by simp [bool_eq_false_of_ne_true hb]⟩)
    cases hrp : repPoint g.nodes e with
    | none => simp [shouldRemove, hrp] at hsr
    | some pt =>
      refine ⟨pt, rfl, ?_⟩
      simpa [shouldRemove, hrp] using hsr
  · intro e he p hrp
    have hm := List.mem_filter.mp he
    have hsf : shouldRemove g.nodes H e = false := by
      have := hm.2
      simpa using this
    simpa [shouldRemove, hrp] using hsf

/-- C5 (amended): on graphs with no parallel edges, a second run of the
Hazard Edge Filter with the same hazard set removes nothing: it returns
count 0 and leaves the graph unchanged. -/
theorem hazard_filter_idempotent (g : Graph) (H : List Polygon) (hkd : KeysDistinct g) :
    blockEdges (blockEdges g H).1 H = ((blockEdges g H).1, 0) := by
  rw [blockEdges_eq g H hkd]
  have hkd' : KeysDistinct
      ({ nodes := g.nodes,
         edges := g.edges.filter (fun x => !shouldRemove g.nodes H x) } : Graph) :=
    List.Pairwise.sublist (List.filter_sublist g.edges) hkd
  rw [blockEdges_eq _ H hkd']
  have hself : (g.edges.filter (fun x => !shouldRemove g.nodes H x)).filter
      (fun x => !shouldRemove g.nodes H x)
      = g.edges.filter (fun x => !shouldRemove g.nodes H x) := by
    apply List.filter_eq_self.mpr
    intro x hx
    exact (List.mem_filter.mp hx).2
  have hnil : (g.edges.filter (fun x => !shouldRemove g.nodes H x)).filter
      (shouldRemove g.nodes H) = [] := by
    apply List.filter_eq_nil_iff.mpr
    intro x hx
    have := (List.mem_filter.mp hx).2
    simp only [Bool.not_eq_true'] at this
    simp [this]
  simp only [hself, hnil, List.length_nil]

/-- The multigraph on which C1 and C5 fail: two parallel edges between the
same node pair; the first-listed one (key 0) has its representative point
inside the hazard polygon, the last-inserted one (key 1) outside. -/
def cexC1In : Edge :=
  { u := Sum.inl 0, v := Sum.inl 1, key := 0, geometry := some (0, 0),
    length := none, speed_kph := none, hazard_penalty := none }

def cexC1Out : Edge :=
  { u := Sum.inl 0, v := Sum.inl 1, key := 1, geometry := some (10, 10),
    length := none, speed_kph := none, hazard_penalty := none }

def cexC1G : Graph :=
  { nodes := [(Sum.inl 0, ⟨some 0, some 0⟩), (Sum.inl 1, ⟨some 1, some 1⟩)],
    edges := [cexC1In, cexC1Out] }

def cexC1H : List Polygon :=
  [boxPoly (-1) (-1) 1 1]

/-- C1 counterexample: on a multigraph with two parallel edges, the filter
removes the edge whose representative point is outside every hazard polygon
and retains the one whose representative point is inside a hazard polygon,
because `remove_edge(u, v)` drops the last-inserted parallel edge rather
than the edge being tested. -/
theorem hazard_filter_correct_cex :
    cexC1Out ∈ cexC1G.edges ∧
    cexC1Out ∉ (blockEdges cexC1G cexC1H).1.edges ∧
    repPoint cexC1G.nodes cexC1Out = some (10, 10) ∧
    anyContains cexC1H (10, 10) = false ∧
    cexC1In ∈ (blockEdges cexC1G cexC1H).1.edges ∧
    repPoint cexC1G.nodes cexC1In = some (0, 0) ∧
    anyContains cexC1H (0, 0) = true := by
  decide

def cexC5In : Edge :=
  { u := Sum.inl 0, v := Sum.inl 1, key := 0, geometry := some (0, 0),
    length := none, speed_kph := none, hazard_penalty := none }

def cexC5Out : Edge :=
  { u := Sum.inl 0, v := Sum.inl 1, key := 1, geometry := some (10, 10),
    length := none, speed_kph := none, hazard_penalty := none }

def cexC5G : Graph :=
  { nodes := [(Sum.inl 0, ⟨some 0, some 0⟩), (Sum.inl 1, ⟨some 1, some 1⟩)],
    edges := [cexC5In, cexC5Out] }

def cexC5H : List Polygon :=
  [boxPoly (-1) (-1) 1 1]

/-- C5 counterexample: with two parallel edges, the first run removes the
(outside) last-inserted edge, so the surviving parallel edge still has its
representative point inside the hazard polygon and the second run removes
one more edge — count 1, not 0, and the graph changes again. -/
theorem hazard_filter_idempotent_cex :
    (blockEdges cexC5G cexC5H).2 = 1 ∧
    (blockEdges (blockEdges cexC5G cexC5H).1 cexC5H).2 = 1 ∧
    (blockEdges (blockEdges cexC5G cexC5H).1 cexC5H).1 ≠ (blockEdges cexC5G cexC5H).1 := by
  decide

/-! ## Lemmas about search outcomes -/

theorem nodesToCoords_ne_nil (g : Graph) (p : List NodeId) (origin target : Point) :
    nodesToCoords g p origin target ≠ [] := by
  simp only [nodesToCoords]
  by_cases h : (p.map (nodeCoord g origin)).isEmpty = true
  · rw [if_pos h]; simp
  · rw [if_neg h]
    intro hnil
    exact h (by rw [hnil]; rfl)

theorem choosePath_none_of_not_reachable (g : Graph) (w : Edge → ℚ) (o t : NodeId)
    (h : reachable g o t = false) : choosePath g w o t = none := by
  unfold choosePath
  by_cases ho : o ∈ nodeIds g ∧ t ∈ nodeIds g
  · rw [if_pos ho]
    unfold reachable at h
    rcases ho with ⟨h1, h2⟩
    simp [h1, h2] at h
    rw [h]
    rfl
  · rw [if_neg ho]

theorem computePathWith_result (w : Edge → ℚ) (res : Resolver) (g : Option Graph)
    (origin target : Point) :
    computePathWith w res g origin target = none ∨
    ∃ l, computePathWith w res g origin target = some l ∧ l ≠ [] := by
  unfold computePathWith
  cases g with
  | none => exact Or.inl rfl
  | some g =>
    simp only [Option.some_bind]
    cases res g origin with
    | none => exact Or.inl rfl
    | some o =>
      simp only [Option.some_bind]
      cases res g target with
      | none => exact Or.inl rfl
      | some t =>
        simp only [Option.some_bind]
        cases choosePath g w o t with
        | none => exact Or.inl rfl
        | some p =>
          exact Or.inr ⟨_, rfl, nodesToCoords_ne_nil g p origin target⟩

/-- C3: when the two resolved endpoints are not joined by any path
(disjoint components, or target unreachable), each of the three searches
returns the explicit `None` outcome rather than raising; and no search ever
returns an empty coordinate list. -/
theorem search_no_path :
    (∀ (res : Resolver) (g : Graph) (origin target : Point) (o t : NodeId),
        res g origin = some o → res g target = some t → reachable g o t = false →
        compute_shortest_path res (some g) origin target = none ∧
        compute_fastest_path res (some g) origin target = none ∧
        compute_safest_path res (some g) origin target = none) ∧
    (∀ (res : Resolver) (g : Option Graph) (origin target : Point) (l : List Point),
        compute_shortest_path res g origin target = some l → l ≠ []) ∧
    (∀ (res : Resolver) (g : Option Graph) (origin target : Point) (l : List Point),
        compute_fastest_path res g origin target = some l → l ≠ []) ∧
    (∀ (res : Resolver) (g : Option Graph) (origin target : Point) (l : List Point),
        compute_safest_path res g origin target = some l → l ≠ []) := by
  refine ⟨?_, ?_, ?_, ?_⟩
  · intro res g origin target o t ho ht hr
    refine ⟨?_, ?_, ?_⟩ <;>
      simp only [compute_shortest_path, compute_fastest_path, compute_safest_path,
        computePathWith, Option.some_bind, ho, ht,
        choosePath_none_of_not_reachable g lengthWeight o t hr,
        choosePath_none_of_not_reachable g fastestTime o t hr,
        choosePath_none_of_not_reachable g safeWeight o t hr,
        Option.map_none', Option.bind_none]
  · intro res g origin target l hl
    rcases computePathWith_result lengthWeight res g origin target with h | ⟨l', hl', hne⟩
    · rw [compute_shortest_path] at hl; rw [h] at hl; cases hl
    · rw [compute_shortest_path] at hl; rw [hl'] at hl
      cases hl
      exact hne
  · intro res g origin target l hl
    rcases computePathWith_result fastestTime res g origin target with h | ⟨l', hl', hne⟩
    · rw [compute_fastest_path] at hl; rw [h] at hl; cases hl
    · rw [compute_fastest_path] at hl; rw [hl'] at hl
      cases hl
      exact hne
  · intro res g origin target l hl
    rcases computePathWith_result safeWeight res g origin target with h | ⟨l', hl', hne⟩
    · rw [compute_safest_path] at hl; rw [h] at hl; cases hl
    · rw [compute_safest_path] at hl; rw [hl'] at hl
      cases hl
      exact hne

/-- A disconnected 4-node graph: one edge 0→1 and one edge 2→3, so node 3
is unreachable from node 0. -/
def witC3G : Graph :=
  { nodes := [(Sum.inl 0, ⟨some 0, some 0⟩), (Sum.inl 1, ⟨some 1, some 1⟩),
              (Sum.inl 2, ⟨some 2, some 2⟩), (Sum.inl 3, ⟨some 3, some 3⟩)],
    edges := [{ u := Sum.inl 0, v := Sum.inl 1, key := 0, geometry := none,
                length := some 1, speed_kph := none, hazard_penalty := none },
              { u := Sum.inl 2, v := Sum.inl 3, key := 0, geometry := none,
                length := some 1, speed_kph := none, hazard_penalty := none }] }

/-- A resolver mapping the origin query to node 0 and any other query to
node 3, as nearest-node search does on `witC3G`'s coordinates. -/
def witC3Res : Resolver := fun _ p =>
  if p = (0, 0) then some (Sum.inl 0) else some (Sum.inl 3)

theorem search_no_path_witness :
    witC3Res witC3G (0, 0) = some (Sum.inl 0) ∧
    witC3Res witC3G (9, 9) = some (Sum.inl 3) ∧
    reachable witC3G (Sum.inl 0) (Sum.inl 3) = false ∧
    compute_shortest_path witC3Res (some witC3G) (0, 0) (9, 9) = none ∧
    compute_fastest_path witC3Res (some witC3G) (0, 0) (9, 9) = none ∧
    compute_safest_path witC3Res (some witC3G) (0, 0) (9, 9) = none := by
  have h := search_no_path.1 witC3Res witC3G (0, 0) (9, 9) (Sum.inl 0) (Sum.inl 3)
    (by decide) (by decide) (by decide)
  exact ⟨by decide, by decide, by decide, h.1, h.2.1, h.2.2⟩

/-- A two-node graph whose single edge has a negative `length`. -/
def cexC7G : Graph :=
  { nodes := [(Sum.inl 0, ⟨some 0, some 0⟩), (Sum.inl 1, ⟨some 1, some 1⟩)],
    edges := [{ u := Sum.inl 0, v := Sum.inl 1, key := 0, geometry := none,
                length := some (-5), speed_kph := none, hazard_penalty := none }] }

/-- A resolver matching nearest-node search on `cexC7G`'s coordinates. -/
def cexC7Res : Resolver := fun _ p =>
  if p = (0, 0) then some (Sum.inl 0) else some (Sum.inl 1)

/-- C7 counterexample: on a graph with a negative edge `length`, all three
searches silently return a route instead of failing with `NO_PATH` or an
error — no negative-weight validation exists in the code. -/
theorem negative_weight_cex :
    (∃ e ∈ cexC7G.edges, e.length.getD 0 < 0) ∧
    compute_shortest_path cexC7Res (some cexC7G) (0, 0) (1, 1) = some [(0, 0), (1, 1)] ∧
    compute_fastest_path cexC7Res (some cexC7G) (0, 0) (1, 1) = some [(0, 0), (1, 1)] ∧
    compute_safest_path cexC7Res (some cexC7G) (0, 0) (1, 1) = some [(0, 0), (1, 1)] := by
  decide

/-- C7 (amended): the searches perform no input validation at all; on every
graph — including graphs holding negative `length` or `hazard_penalty`
values — each search either returns the `None` outcome (when resolution or
the path search raises) or silently returns a nonempty coordinate route. -/
theorem negative_weight_silent (res : Resolver) (g : Option Graph)
    (origin target : Point) :
    (compute_shortest_path res g origin target = none ∨
      ∃ l, compute_shortest_path res g origin target = some l ∧ l ≠ []) ∧
    (compute_fastest_path res g origin target = none ∨
      ∃ l, compute_fastest_path res g origin target = some l ∧ l ≠ []) ∧
    (compute_safest_path res g origin target = none ∨
      ∃ l, compute_safest_path res g origin target = some l ∧ l ≠ []) :=
  ⟨computePathWith_result lengthWeight res g origin target,
   computePathWith_result fastestTime res g origin target,
   computePathWith_result safeWeight res g origin target⟩

/-! ## Weight scaling and the degenerate-equivalence property -/

theorem minAux_map_mul {c : ℚ} (hc : 0 ≤ c) :
    ∀ (l : List ℚ) (a : ℚ), minAux (c * a) (l.map (fun x => c * x)) = c * minAux a l := by
  intro l
  induction l with
  | nil => intro a; rfl
  | cons x xs ih =>
    intro a
    simp only [List.map_cons, minAux]
    rw [← mul_min_of_nonneg _ _ hc]
    exact ih (min a x)

theorem edgeCost_mul (g : Graph) (w w' : Edge → ℚ) (c : ℚ) (hc : 0 ≤ c)
    (hw : ∀ e ∈ g.edges, w' e = c * w e) (u v : NodeId) :
    edgeCost g w' u v = c * edgeCost g w u v := by
  unfold edgeCost
  have hmap : (g.edges.filter (fun e => decide (e.u = u) && decide (e.v = v))).map w'
      = ((g.edges.filter (fun e => decide (e.u = u) && decide (e.v = v))).map w).map
          (fun x => c * x) := by
    rw [List.map_map]
    apply List.map_congr_left
    intro e he
    exact hw e (List.mem_filter.mp he).1
  rw [hmap]
  generalize (g.edges.filter (fun e => decide (e.u = u) && decide (e.v = v))).map w = l
  cases l with
  | nil => simp
  | cons x xs => exact minAux_map_mul hc xs x

theorem pathCost_mul (g : Graph) (w w' : Edge → ℚ) (c : ℚ) (hc : 0 ≤ c)
    (hw : ∀ e ∈ g.edges, w' e = c * w e) :
    ∀ p : List NodeId, pathCost g w' p = c * pathCost g w p := by
  intro p
  induction p with
  | nil => show (0 : ℚ) = c * 0; rw [mul_zero]
  | cons u rest ih =>
    cases rest with
    | nil => show (0 : ℚ) = c * 0; rw [mul_zero]
    | cons v rest' =>
      show edgeCost g w' u v + pathCost g w' (v :: rest')
          = c * (edgeCost g w u v + pathCost g w (v :: rest'))
      rw [edgeCost_mul g w w' c hc hw, ih, mul_add]

theorem foldl_min_mul (cost : List NodeId → ℚ) (c : ℚ) (hc : 0 < c) :
    ∀ (ps : List (List NodeId)) (b : List NodeId),
      ps.foldl (fun b q => if c * cost q < c * cost b then q else b) b
        = ps.foldl (fun b q => if cost q < cost b then q else b) b := by
  intro ps
  induction ps with
  | nil => intro b; rfl
  | cons p ps ih =>
    intro b
    simp only [List.foldl_cons]
    rw [show (if c * cost p < c * cost b then p else b) = (if cost p < cost b then p else b) by
      by_cases h : cost p < cost b
      · rw [if_pos h, if_pos ((mul_lt_mul_left hc).mpr h)]
      · rw [if_neg h, if_neg (fun hlt => h ((mul_lt_mul_left hc).mp hlt))]]
    exact ih _

theorem bestPath_mul (cost cost' : List NodeId → ℚ) (c : ℚ) (hc : 0 < c)
    (h : ∀ p, cost' p = c * cost p) (ps : List (List NodeId)) :
    bestPath cost' ps = bestPath cost ps := by
  have hfun : cost' = fun p => c * cost p := funext h
  subst hfun
  cases ps with
  | nil => rfl
  | cons p ps =>
    simp only [bestPath]
    rw [foldl_min_mul cost c hc ps p]

theorem choosePath_mul (g : Graph) (w w' : Edge → ℚ) (c : ℚ) (hc : 0 < c)
    (hw : ∀ e ∈ g.edges, w' e = c * w e) (o t : NodeId) :
    choosePath g w' o t = choosePath g w o t := by
  unfold choosePath
  by_cases h : o ∈ nodeIds g ∧ t ∈ nodeIds g
  · rw [if_pos h, if_pos h]
    exact bestPath_mul (pathCost g w) (pathCost g w') c hc
      (pathCost_mul g w w' c hc.le hw) (allPaths g o t)
  · rw [if_neg h, if_neg h]

theorem computePathWith_congr_weight (w w' : Edge → ℚ) (res : Resolver) (g : Graph)
    (origin target : Point)
    (h : ∀ o t, choosePath g w' o t = choosePath g w o t) :
    computePathWith w' res (some g) origin target
      = computePathWith w res (some g) origin target := by
  unfold computePathWith
  simp only [Option.some_bind]
  cases res g origin with
  | none => rfl
  | some o =>
    simp only [Option.some_bind]
    cases res g target with
    | none => rfl
    | some t =>
      simp only [Option.some_bind]
      rw [h o t]

/-- C4 (amended): on a graph in which every edge carries a `length`
attribute, every edge's `hazard_penalty` is (or defaults to) zero, and
`speed_kph` is uniform across edges (all equal, possibly uniformly absent),
the fastest and safest searches return exactly the coordinate sequence of
the shortest search.  Without the length-presence condition the claim fails
(see the counterexample): the shortest search substitutes 1 for a missing
`length`, while fastest and safest substitute 100. -/
theorem degenerate_equivalence (res : Resolver) (g : Graph) (origin target : Point)
    (sOpt : Option ℚ)
    (hlen : ∀ e ∈ g.edges, e.length.isSome = true)
    (hsp : ∀ e ∈ g.edges, e.speed_kph = sOpt)
    (hhz : ∀ e ∈ g.edges, e.hazard_penalty.getD 0 = 0) :
    compute_fastest_path res (some g) origin target
      = compute_shortest_path res (some g) origin target ∧
    compute_safest_path res (some g) origin target
      = compute_shortest_path res (some g) origin target := by
  constructor
  · by_cases hpos : 0 < sOpt.getD 30
    · apply computePathWith_congr_weight
      intro o t
      apply choosePath_mul g lengthWeight fastestTime (3600 / (sOpt.getD 30 * 1000))
        (div_pos (by norm_num) (mul_pos hpos (by norm_num)))
      intro e he
      obtain ⟨L, hL⟩ := Option.isSome_iff_exists.mp (hlen e he)
      simp only [fastestTime, lengthWeight, hL, hsp e he, Option.getD_some, if_pos hpos]
      rw [div_div_eq_mul_div]
      ring
    · apply computePathWith_congr_weight
      intro o t
      apply choosePath_mul g lengthWeight fastestTime (1 / 10) (by norm_num)
      intro e he
      obtain ⟨L, hL⟩ := Option.isSome_iff_exists.mp (hlen e he)
      simp only [fastestTime, lengthWeight, hL, hsp e he, Option.getD_some, if_neg hpos]
      ring
  · apply computePathWith_congr_weight
    intro o t
    apply choosePath_mul g lengthWeight safeWeight 1 one_pos
    intro e he
    obtain ⟨L, hL⟩ := Option.isSome_iff_exists.mp (hlen e he)
    simp only [safeWeight, lengthWeight, hL, hhz e he, Option.getD_some]
    ring

/-- A triangle graph satisfying the stated C4 hypotheses (zero
hazard_penalty everywhere, uniform speed_kph = 5) but with a missing
`length` on the direct edge 0→1; the detour 0→2→1 has length 5 + 5. -/
def cexC4G : Graph :=
  { nodes := [(Sum.inl 0, ⟨some 0, some 0⟩), (Sum.inl 1, ⟨some 1, some 1⟩),
              (Sum.inl 2, ⟨some 2, some 2⟩)],
    edges := [{ u := Sum.inl 0, v := Sum.inl 1, key := 0, geometry := none,
                length := none, speed_kph := some 5, hazard_penalty := none },
              { u := Sum.inl 0, v := Sum.inl 2, key := 0, geometry := none,
                length := some 5, speed_kph := some 5, hazard_penalty := none },
              { u := Sum.inl 2, v := Sum.inl 1, key := 0, geometry := none,
                length := some 5, speed_kph := some 5, hazard_penalty := none }] }

/-- A resolver matching nearest-node search on `cexC4G`'s coordinates. -/
def cexC4Res : Resolver := fun _ p =>
  if p = (0, 0) then some (Sum.inl 0) else some (Sum.inl 1)

/-- C4 counterexample: on `cexC4G` — all hazard penalties zero, uniform
speed — the shortest search takes the direct edge (missing length counts
as 1), while fastest and safest take the detour (missing length counts as
100/10 and 100): the node orderings differ. -/
theorem degenerate_equivalence_cex :
    (∀ e ∈ cexC4G.edges, e.speed_kph = some 5) ∧
    (∀ e ∈ cexC4G.edges, e.hazard_penalty.getD 0 = 0) ∧
    compute_shortest_path cexC4Res (some cexC4G) (0, 0) (1, 1)
      = some [(0, 0), (1, 1)] ∧
    compute_fastest_path cexC4Res (some cexC4G) (0, 0) (1, 1)
      = some [(0, 0), (2, 2), (1, 1)] ∧
    compute_safest_path cexC4Res (some cexC4G) (0, 0) (1, 1)
      = some [(0, 0), (2, 2), (1, 1)] ∧
    compute_fastest_path cexC4Res (some cexC4G) (0, 0) (1, 1)
      ≠ compute_shortest_path cexC4Res (some cexC4G) (0, 0) (1, 1) ∧
    compute_safest_path cexC4Res (some cexC4G) (0, 0) (1, 1)
      ≠ compute_shortest_path cexC4Res (some cexC4G) (0, 0) (1, 1) := by
  have hshort : compute_shortest_path cexC4Res (some cexC4G) (0, 0) (1, 1)
      = some [(0, 0), (1, 1)] := by
    norm_num [compute_shortest_path, computePathWith, cexC4Res, cexC4G, choosePath, nodeIds,
      allPaths, pathsAux, neighbors, bestPath, pathCost, edgeCost, minAux, lengthWeight,
      nodesToCoords, nodeCoord, lookupNode, List.find?, List.filter]
  have hfast : compute_fastest_path cexC4Res (some cexC4G) (0, 0) (1, 1)
      = some [(0, 0), (2, 2), (1, 1)] := by
    norm_num [compute_fastest_path, computePathWith, cexC4Res, cexC4G, choosePath, nodeIds,
      allPaths, pathsAux, neighbors, bestPath, pathCost, edgeCost, minAux, fastestTime,
      nodesToCoords, nodeCoord, lookupNode, List.find?, List.filter]
    decide
  have hsafe : compute_safest_path cexC4Res (some cexC4G) (0, 0) (1, 1)
      = some [(0, 0), (2, 2), (1, 1)] := by
    norm_num [compute_safest_path, computePathWith, cexC4Res, cexC4G, choosePath, nodeIds,
      allPaths, pathsAux, neighbors, bestPath, pathCost, edgeCost, minAux, safeWeight,
      nodesToCoords, nodeCoord, lookupNode, List.find?, List.filter]
    decide
  refine ⟨by decide, by decide, hshort, hfast, hsafe, ?_, ?_⟩
  · rw [hfast, hshort]
    decide
  · rw [hsafe, hshort]
    decide

/-- A two-node graph meeting all hypotheses of the amended C4. -/
def witC4G : Graph :=
  { nodes := [(Sum.inl 0, ⟨some 0, some 0⟩), (Sum.inl 1, ⟨some 1, some 1⟩)],
    edges := [{ u := Sum.inl 0, v := Sum.inl 1, key := 0, geometry := none,
                length := some 2, speed_kph := some 5, hazard_penalty := some 0 }] }

/-- A resolver matching nearest-node search on `witC4G`'s coordinates. -/
def witC4Res : Resolver := fun _ p =>
  if p = (0, 0) then some (Sum.inl 0) else some (Sum.inl 1)

theorem degenerate_equivalence_witness :
    (∀ e ∈ witC4G.edges, e.length.isSome = true) ∧
    (∀ e ∈ witC4G.edges, e.speed_kph = some 5) ∧
    (∀ e ∈ witC4G.edges, e.hazard_penalty.getD 0 = 0) ∧
    (compute_fastest_path witC4Res (some witC4G) (0, 0) (1, 1)
      = compute_shortest_path witC4Res (some witC4G) (0, 0) (1, 1) ∧
     compute_safest_path witC4Res (some witC4G) (0, 0) (1, 1)
      = compute_shortest_path witC4Res (some witC4G) (0, 0) (1, 1)) :=
  ⟨by decide, by decide, by decide,
   degenerate_equivalence witC4Res witC4G (0, 0) (1, 1) (some 5)
     (by decide) (by decide) (by decide)⟩

/-! ## The fastest-path weight formula (C2) -/

/-- The fastest-path weight exactly as the spec's C2 sentence words it: the
travel-time formula applies only when `speed_kph` is itself present on the
edge and positive; otherwise `length` (default 100) divided by 10.  Stated
for comparison with the code's `fastestTime`. -/
def specFastestTime (e : Edge) : ℚ :=
  match e.length, e.speed_kph with
  | some L, some s => if 0 < s then L / (s * 1000 / 3600) else L / 10
  | some L, none => L / 10
  | none, _ => (100 : ℚ) / 10

def cexC2E : Edge :=
  { u := Sum.inl 0, v := Sum.inl 1, key := 0, geometry := none,
    length := some 50, speed_kph := none, hazard_penalty := none }

/-- C2 counterexample: an edge carrying `length = 50` but no `speed_kph`
gets weight 50 / (30 * 1000 / 3600) = 6 from the code — `speed_kph`
defaults to 30 — not 50 / 10 = 5 as the claim states. -/
theorem fastest_weight_cex :
    fastestTime cexC2E = 6 ∧ specFastestTime cexC2E = 5 ∧
    fastestTime cexC2E ≠ specFastestTime cexC2E := by
  have h1 : fastestTime cexC2E = 6 := by
    norm_num [fastestTime, cexC2E]
  have h2 : specFastestTime cexC2E = 5 := by
    norm_num [specFastestTime, cexC2E]
  refine ⟨h1, h2, ?_⟩
  rw [h1, h2]
  norm_num

/-- C2 (amended): the derived `time` weight is
`length / (speedEff * 1000 / 3600)` where `speedEff` is `speed_kph` when
present and the default 30 when absent, provided `length` is present and
`speedEff` is positive; otherwise it is `length` (default 100 when absent)
divided by 10. -/
theorem fastest_weight_formula (e : Edge) :
    (∀ L, e.length = some L → 0 < e.speed_kph.getD 30 →
        fastestTime e = L / (e.speed_kph.getD 30 * 1000 / 3600)) ∧
    (∀ L, e.length = some L → e.speed_kph.getD 30 ≤ 0 → fastestTime e = L / 10) ∧
    (e.length = none → fastestTime e = 100 / 10) := by
  refine ⟨?_, ?_, ?_⟩
  · intro L hL hpos
    simp only [fastestTime, hL]
    rw [if_pos hpos]
  · intro L hL hnp
    simp only [fastestTime, hL]
    rw [if_neg (not_lt.mpr hnp)]
  · intro hL
    simp only [fastestTime, hL]

def witC2E : Edge :=
  { u := Sum.inl 0, v := Sum.inl 1, key := 0, geometry := none,
    length := some 50, speed_kph := some 10, hazard_penalty := none }

theorem fastest_weight_formula_witness :
    witC2E.length = some 50 ∧ 0 < witC2E.speed_kph.getD 30 ∧
    fastestTime witC2E = 50 / (witC2E.speed_kph.getD 30 * 1000 / 3600) :=
  ⟨rfl, by decide, (fastest_weight_formula witC2E).1 50 rfl (by decide)⟩

/-! ## The path materializer (C9, C10) -/

/-- The per-node mapping exactly as the spec's C9 sentence words it: when a
looked-up node's attributes are missing, the whole caller-supplied origin
coordinate is substituted for that position.  Stated for comparison with
the code's `nodeCoord`, whose `.get` fallbacks are componentwise. -/
def specNodeCoord (g : Graph) (origin : Point) : NodeId → Point
  | Sum.inr c => c
  | Sum.inl k =>
    match lookupNode g.nodes (Sum.inl k) with
    | some d =>
      match d.y, d.x with
      | some y, some x => (y, x)
      | _, _ => origin
    | none => origin

/-- The materializer as the spec's C9 sentence describes it. -/
def specNodesToCoords (g : Graph) (path : List NodeId) (origin target : Point) :
    List Point :=
  let coords := path.map (specNodeCoord g origin)
  if coords.isEmpty then [origin, target] else coords

def cexC9G : Graph :=
  { nodes := [(Sum.inl 0, ⟨none, some 5⟩)], edges := [] }

/-- C9 counterexample: node 0 has `y = 5` but no `x`; with origin (1, 2)
the code produces the mixed coordinate (5, 2) — `y` kept, origin's
longitude substituted for `x` — while the claim's whole-origin substitution
would produce (1, 2). -/
theorem materializer_cex :
    nodesToCoords cexC9G [Sum.inl 0] (1, 2) (3, 4) = [(5, 2)] ∧
    specNodesToCoords cexC9G [Sum.inl 0] (1, 2) (3, 4) = [(1, 2)] ∧
    nodesToCoords cexC9G [Sum.inl 0] (1, 2) (3, 4)
      ≠ specNodesToCoords cexC9G [Sum.inl 0] (1, 2) (3, 4) := by
  decide

/-- C9 (amended): the materializer maps each node of a nonempty path to one
coordinate: a tuple node identifier is used directly; a failed node lookup
substitutes the whole origin coordinate; a successful lookup reads
`(y, x)` with componentwise fallbacks — origin's latitude for a missing
`y`, origin's longitude for a missing `x`.  An empty path yields
`[origin, target]`. -/
theorem materializer_spec (g : Graph) (p : List NodeId) (o t : Point) :
    (nodesToCoords g [] o t = [o, t]) ∧
    (p ≠ [] → nodesToCoords g p o t = p.map (nodeCoord g o)) ∧
    (∀ c, nodeCoord g o (Sum.inr c) = c) ∧
    (∀ k, lookupNode g.nodes (Sum.inl k) = none → nodeCoord g o (Sum.inl k) = o) ∧
    (∀ k d, lookupNode g.nodes (Sum.inl k) = some d →
        nodeCoord g o (Sum.inl k) = (d.y.getD o.1, d.x.getD o.2)) := by
  refine ⟨rfl, ?_, fun c => rfl, ?_, ?_⟩
  · intro hp
    cases p with
    | nil => exact absurd rfl hp
    | cons a p' => rfl
  · intro k h
    simp only [nodeCoord, h]
  · intro k d h
    simp only [nodeCoord, h]

def witC9G : Graph :=
  { nodes := [(Sum.inl 0, ⟨none, some 5⟩)], edges := [] }

theorem materializer_spec_witness :
    ([Sum.inl 0] : List NodeId) ≠ [] ∧
    nodesToCoords witC9G [Sum.inl 0] (1, 2) (3, 4)
      = ([Sum.inl 0] : List NodeId).map (nodeCoord witC9G (1, 2)) :=
  ⟨by decide, (materializer_spec witC9G [Sum.inl 0] (1, 2) (3, 4)).2.1 (by decide)⟩

/-- C10: on a nonempty node path, the materializer's output has exactly the
path's length — every node contributes exactly one coordinate, and no
position is skipped even when its coordinate lookup fails. -/
theorem materializer_length (g : Graph) (p : List NodeId) (o t : Point) (hp : p ≠ []) :
    (nodesToCoords g p o t).length = p.length := by
  cases p with
  | nil => exact absurd rfl hp
  | cons a p' =>
    show ((a :: p').map (nodeCoord g o)).length = (a :: p').length
    exact List.length_map _ _

def witC10G : Graph :=
  { nodes := [], edges := [] }

theorem materializer_length_witness :
    ([Sum.inl 0, Sum.inr (7, 8)] : List NodeId) ≠ [] ∧
    (nodesToCoords witC10G [Sum.inl 0, Sum.inr (7, 8)] (1, 2) (3, 4)).length = 2 :=
  ⟨by decide, materializer_length witC10G [Sum.inl 0, Sum.inr (7, 8)] (1, 2) (3, 4) (by decide)⟩

/-! ## The grid fallback (C6) and remaining witnesses -/

/-- The number of edges joining an unordered node pair. -/
def edgesBetween (g : Graph) (a b : NodeId) : ℕ :=
  (g.edges.filter (fun e =>
    (decide (e.u = a) && decide (e.v = b)) || (decide (e.u = b) && decide (e.v = a)))).length

/-- Orthogonal lattice adjacency of two tuple nodes: both are pairs of
integers (denominator 1) differing by exactly one in exactly one
component.  Phrased on `Rat.num`/`Rat.den` so it is kernel-computable. -/
def gridAdjacent (a b : NodeId) : Bool :=
  match a, b with
  | Sum.inr p, Sum.inr q =>
    (decide (p.1.den = 1) && decide (p.2.den = 1) &&
     decide (q.1.den = 1) && decide (q.2.den = 1)) &&
    ((decide (p.1.num = q.1.num) &&
        (decide (p.2.num + 1 = q.2.num) || decide (q.2.num + 1 = p.2.num))) ||
     (decide (p.2.num = q.2.num) &&
        (decide (p.1.num + 1 = q.1.num) || decide (q.1.num + 1 = p.1.num))))
  | _, _ => false

theorem gridNode_mem_nodeIds (size a b : ℕ) (ha : a < size) (hb : b < size) :
    gridNode a b ∈ nodeIds (build_grid_graph size) := by
  apply List.mem_map.mpr
  refine ⟨(gridNode a b, ⟨none, none⟩), ?_, rfl⟩
  apply List.mem_flatMap.mpr
  exact ⟨a, List.mem_range.mpr ha, List.mem_map.mpr ⟨b, List.mem_range.mpr hb, rfl⟩⟩

/-- Every edge of the grid fallback, at any size, references two nodes
present in the graph: the construction never leaves dangling endpoints. -/
theorem build_grid_graph_valid (size : ℕ) :
    ∀ e ∈ (build_grid_graph size).edges,
      e.u ∈ nodeIds (build_grid_graph size) ∧ e.v ∈ nodeIds (build_grid_graph size) := by
  intro e he
  simp only [build_grid_graph] at he
  rcases List.mem_flatMap.mp he with ⟨p, hp, hep⟩
  rcases List.mem_flatMap.mp hp with ⟨i, hi, hpi⟩
  rcases List.mem_map.mp hpi with ⟨j, hj, hpij⟩
  rw [List.mem_range] at hi hj
  subst hpij
  rcases List.mem_append.mp hep with h | h
  · by_cases hc : i + 1 < size
    · rw [if_pos hc] at h
      rcases List.mem_singleton.mp h with rfl
      exact ⟨gridNode_mem_nodeIds size i j hi hj, gridNode_mem_nodeIds size (i + 1) j hc hj⟩
    · rw [if_neg hc] at h
      cases h
  · by_cases hc : j + 1 < size
    · rw [if_pos hc] at h
      rcases List.mem_singleton.mp h with rfl
      exact ⟨gridNode_mem_nodeIds size i j hi hj, gridNode_mem_nodeIds size i (j + 1) hi hc⟩
    · rw [if_neg hc] at h
      cases h

set_option maxRecDepth 100000 in
set_option maxHeartbeats 4000000 in
/-- C6: whenever the live fetch fails (`fetched = none`) and the cached
branch is not taken (online, or no cache file), `load_graph` returns the
synthetic 10×10 grid; the grid has 100 lattice nodes addressed by their
(row, column) pair and exactly 180 edges, every edge has `length = 1` and
joins an orthogonally adjacent pair, each adjacent pair is joined by
exactly one edge, and every edge endpoint is a node of the graph (the
fallback is total — a valid graph is always returned). -/
theorem grid_fallback :
    (∀ cached : Graph,
        load_graph true true cached none = build_grid_graph 10 ∧
        load_graph true false cached none = build_grid_graph 10 ∧
        load_graph false false cached none = build_grid_graph 10) ∧
    (build_grid_graph 10).nodes.length = 100 ∧
    (build_grid_graph 10).edges.length = 180 ∧
    (∀ e ∈ (build_grid_graph 10).edges, e.length = some 1) ∧
    (∀ e ∈ (build_grid_graph 10).edges, gridAdjacent e.u e.v = true) ∧
    (∀ i j : Fin 10, (i : ℕ) + 1 < 10 →
       edgesBetween (build_grid_graph 10) (gridNode i j) (gridNode ((i : ℕ) + 1) j) = 1) ∧
    (∀ i j : Fin 10, (j : ℕ) + 1 < 10 →
       edgesBetween (build_grid_graph 10) (gridNode i j) (gridNode i ((j : ℕ) + 1)) = 1) ∧
    (∀ e ∈ (build_grid_graph 10).edges,
       e.u ∈ nodeIds (build_grid_graph 10) ∧ e.v ∈ nodeIds (build_grid_graph 10)) := by
  refine ⟨fun cached => ⟨rfl, rfl, rfl⟩, by decide, by decide, by decide, by decide,
    by decide, by decide, build_grid_graph_valid 10⟩

theorem grid_fallback_witness :
    ((3 : Fin 10) : ℕ) + 1 < 10 ∧
    edgesBetween (build_grid_graph 10) (gridNode (3 : Fin 10) (4 : Fin 10))
      (gridNode (((3 : Fin 10) : ℕ) + 1) (4 : Fin 10)) = 1 :=
  ⟨by decide, grid_fallback.2.2.2.2.2.1 3 4 (by decide)⟩

instance (g : Graph) : Decidable (KeysDistinct g) :=
  inferInstanceAs (Decidable (g.edges.Pairwise KeyNe))

/-- A hazard-filter input with no parallel edges: edge 0→1 has its
representative point inside the hazard box, edge 1→2 outside. -/
def witC1G : Graph :=
  { nodes := [(Sum.inl 0, ⟨some 0, some 0⟩), (Sum.inl 1, ⟨some 1, some 1⟩),
              (Sum.inl 2, ⟨some 2, some 2⟩)],
    edges := [{ u := Sum.inl 0, v := Sum.inl 1, key := 0, geometry := some (0, 0),
                length := none, speed_kph := none, hazard_penalty := none },
              { u := Sum.inl 1, v := Sum.inl 2, key := 0, geometry := some (10, 10),
                length := none, speed_kph := none, hazard_penalty := none }] }

def witC1H : List Polygon :=
  [boxPoly (-1) (-1) 1 1]

theorem hazard_filter_correct_witness :
    KeysDistinct witC1G ∧
    (∀ e ∈ witC1G.edges, e ∉ (blockEdges witC1G witC1H).1.edges →
       ∃ p, repPoint witC1G.nodes e = some p ∧ anyContains witC1H p = true) ∧
    (∀ e ∈ (blockEdges witC1G witC1H).1.edges, ∀ p, repPoint witC1G.nodes e = some p →
       anyContains witC1H p = false) :=
  ⟨by decide, (hazard_filter_correct witC1G witC1H (by decide)).1,
   (hazard_filter_correct witC1G witC1H (by decide)).2⟩

def witC5G : Graph :=
  { nodes := [(Sum.inl 0, ⟨some 0, some 0⟩), (Sum.inl 1, ⟨some 1, some 1⟩),
              (Sum.inl 2, ⟨some 2, some 2⟩)],
    edges := [{ u := Sum.inl 0, v := Sum.inl 1, key := 0, geometry := some (0, 0),
                length := none, speed_kph := none, hazard_penalty := none },
              { u := Sum.inl 1, v := Sum.inl 2, key := 0, geometry := some (10, 10),
                length := none, speed_kph := none, hazard_penalty := none }] }

def witC5H : List Polygon :=
  [boxPoly (-1) (-1) 1 1]

theorem hazard_filter_idempotent_witness :
    KeysDistinct witC5G ∧
    blockEdges (blockEdges witC5G witC5H).1 witC5H = ((blockEdges witC5G witC5H).1, 0) :=
  ⟨by decide, hazard_filter_idempotent witC5G witC5H (by decide)⟩

end Disaster
